import Mathlib

/-!
Verification of `pallet-ajuna-gameregistry` (`src/lib.rs`) against its
natural-language specification.

Shallow embedding conventions:
* `T::Hash`, `T::AccountId` and `T::BlockNumber` are modelled as `Nat`
  (they are opaque identifiers / tick counters in the pallet).
* The `u64` storage nonce is a `Nat` reduced mod `2 ^ 64` where the source
  uses `wrapping_add`.
* The three durable stores (`GameQueues`, `GameRegistry`, `Nonce`) form the
  `PalletState` record; storage maps are total functions to `Option`,
  mirroring `contains_key` / `ValueQuery` getters of the runtime.
* The hashing of `(seed, sender, nonce)` and the external matchmaker are
  injected capabilities, passed as function parameters.
* Dispatchables return their `DispatchResult` together with the post state;
  `ack_game` commits storage writes performed before a failure, exactly as
  the source's sequential inserts do.
-/

/-- `GameState` from the source: lifecycle tag of a session record. -/
inductive GameState where
  | None
  | Waiting
  | Accepted
  | Running
  | Finished (winner : Nat)
deriving DecidableEq

/-- Discriminator for the `Finished` variant. -/
def GameState.isFinished : GameState → Bool
  | GameState.Finished _ => true
  | _ => false

/-- `GameEngine` from the source: id and version identifying a game category. -/
structure GameEngine where
  id : Nat
  version : Nat
deriving DecidableEq

/-- The 4-slot `state_change : [BlockNumber; 4]` array of a `GameEntry`:
slot 0 = creation tick, slot 1 = acceptance tick, slot 2 = running tick,
slot 3 = finish tick. -/
structure StateChange where
  s0 : Nat
  s1 : Nat
  s2 : Nat
  s3 : Nat
deriving DecidableEq

/-- `GameEntry` from the source: the full session record. -/
structure GameEntry where
  id : Nat
  tee_id : Option Nat
  game_engine : GameEngine
  players : List Nat
  game_state : GameState
  state_change : StateChange
deriving DecidableEq

/-- The `Default` value of `GameEntry` (all fields defaulted), returned by the
`ValueQuery` getter `game_registry` when the key is absent. -/
def defaultGameEntry : GameEntry :=
  { id := 0
    tee_id := none
    game_engine := { id := 0, version := 0 }
    players := []
    game_state := GameState.None
    state_change := { s0 := 0, s1 := 0, s2 := 0, s3 := 0 } }

/-- The durable stores of the pallet: `GameQueues`, `GameRegistry`, `Nonce`. -/
structure PalletState where
  gameQueues : GameEngine → Option (List Nat)
  gameRegistry : Nat → Option GameEntry
  nonce : Nat

/-- Point update of a storage map (`insert` / `remove` of a `StorageMap`). -/
def upd {α β : Type} [DecidableEq α] (m : α → Option β) (k : α) (v : Option β) :
    α → Option β :=
  fun x => if x = k then v else m x

/-- Errors of the pallet (`Error<T>` in the source). -/
inductive PalletError where
  | NoneValue
  | StorageOverflow
  | AckToMany
  | AckFail
  | NoGameQueue
  | NoGameEntry
  | AlreadyQueued
deriving DecidableEq

/-- `MAX_GAMES_PER_BLOCK` from the source. -/
def MAX_GAMES_PER_BLOCK : Nat := 10

/-- `MAX_QUEUE_SIZE` from the source. -/
def MAX_QUEUE_SIZE : Nat := 64

/-- Modelled from the spec: `Queue::new` of `src/queues.rs`, which is absent
from the source snapshot (only `mod queues;` and the call sites survive).
The spec describes a bounded FIFO whose behavior at capacity is explicitly
unspecified, so the model keeps just the ordered contents; the capacity
argument is accepted and ignored. -/
def Queue.new (_capacity : Nat) : List Nat := []

/-- Modelled from the spec: `enqueue(item)` appends to the tail. -/
def Queue.enqueue (q : List Nat) (x : Nat) : List Nat := q ++ [x]

/-- Modelled from the spec: `peek()` returns the head without removing it. -/
def Queue.peek (q : List Nat) : Option Nat := q.head?

/-- Modelled from the spec: `dequeue()` removes and returns the head. -/
def Queue.dequeue (q : List Nat) : Option Nat × List Nat :=
  match q with
  | [] => (none, [])
  | h :: t => (some h, t)

/-- Modelled from the spec: `remove(item)` deletes the first occurrence of
`item`, preserving the relative order of the remaining elements. -/
def Queue.remove (q : List Nat) (x : Nat) : List Nat := q.erase x

/-- Modelled from the spec: `length()` is the current element count. -/
def Queue.size (q : List Nat) : Nat := q.length

/-- `encode_and_update_nonce` from the source: returns the (encoded) current
nonce and stores `nonce.wrapping_add(1)`. -/
def encode_and_update_nonce (s : PalletState) : Nat × PalletState :=
  (s.nonce, { s with nonce := (s.nonce + 1) % 2 ^ 64 })

/-- `generate_random_hash` from the source: hashes the entropy seed, the
sender and the freshly consumed nonce.  The entropy seed and the hash
function are injected capabilities. -/
def generate_random_hash (hashFn : Nat → Nat → Nat → Nat) (seed : Nat)
    (s : PalletState) (sender : Nat) : Nat × PalletState :=
  let r := encode_and_update_nonce s
  (hashFn seed sender r.1, r.2)

/-- `create_game_entry` from the source: builds a fresh record in `Waiting`
state with the creation tick in slot 0.  The source indexes `players[0]`,
which panics on an empty list; that fallible access is modelled by
returning `none` for an empty player list. -/
def create_game_entry (hashFn : Nat → Nat → Nat → Nat) (seed now : Nat)
    (s : PalletState) (game_engine : GameEngine) (players : List Nat) :
    Option (GameEntry × PalletState) :=
  match players with
  | [] => none
  | p0 :: _ =>
    let r := generate_random_hash hashFn seed s p0
    some
      ({ id := r.1
         tee_id := none
         game_engine := game_engine
         players := players
         game_state := GameState.Waiting
         state_change := { s0 := now, s1 := 0, s2 := 0, s3 := 0 } }, r.2)

/-- `queue_game` from the source: create a record, insert it into the
registry and enqueue its id into the category's queue (creating the queue
if the category has none).  Returns the created id (the payload of the
`GameQueued` event) with the post state. -/
def queue_game (hashFn : Nat → Nat → Nat → Nat) (seed now : Nat)
    (s : PalletState) (game_engine : GameEngine) (players : List Nat) :
    Option (Nat × PalletState) :=
  match create_game_entry hashFn seed now s game_engine players with
  | none => none
  | some es =>
    let ge := es.1
    let s1 : PalletState :=
      { es.2 with gameRegistry := upd es.2.gameRegistry ge.id (some ge) }
    let q :=
      match s1.gameQueues game_engine with
      | some q0 => q0
      | none => Queue.new MAX_QUEUE_SIZE
    some (ge.id,
      { s1 with
          gameQueues :=
            upd s1.gameQueues game_engine (some (Queue.enqueue q ge.id)) })

/-- `drop_game` from the source: if the registry holds the hash, remove the
entry; then, if the given category's queue is non-empty, remove the hash
from it as well.  The dispatchable always returns `Ok(())`, so only the
post state is returned. -/
def drop_game (s : PalletState) (game_hash : Nat) (game_engine : GameEngine) :
    PalletState :=
  if (s.gameRegistry game_hash).isSome then
    let s1 : PalletState :=
      { s with gameRegistry := upd s.gameRegistry game_hash none }
    let gq := (s1.gameQueues game_engine).getD []
    if Queue.size gq > 0 then
      { s1 with
          gameQueues :=
            upd s1.gameQueues game_engine (some (Queue.remove gq game_hash)) }
    else s1
  else s

/-- The registry write performed for one acknowledged id in `ack_game`:
fetch the entry through the `ValueQuery` getter (defaulted when absent),
stamp the acceptance tick into slot 1 and set the state to `Accepted`. -/
def ackEntry (reg : Nat → Option GameEntry) (g : Nat) (now : Nat) : GameEntry :=
  let e := (reg g).getD defaultGameEntry
  { e with
      state_change := { e.state_change with s1 := now }
      game_state := GameState.Accepted }

/-- The `for game_hash_tee in games` loop of `ack_game`, threading the local
queue and the registry.  Returns the error (if any), the remaining queue,
the registry and the list of ids acknowledged before stopping. -/
def ackLoop (now : Nat) : List Nat → List Nat → (Nat → Option GameEntry) →
    Option PalletError × List Nat × (Nat → Option GameEntry) × List Nat
  | [], q, reg => (none, q, reg, [])
  | g :: gs, q, reg =>
    match Queue.peek q with
    | some h =>
      if h = g then
        let r := ackLoop now gs (Queue.dequeue q).2
          (upd reg g (some (ackEntry reg g now)))
        (r.1, r.2.1, r.2.2.1, g :: r.2.2.2)
      else (some PalletError.AckFail, q, reg, [])
    | none => (some PalletError.AckFail, q, reg, [])

/-- `ack_game` from the source, instrumented with the list of acknowledged
ids (whose length is the `games_count` of the `GamesAccepted` event).
Storage writes of the matched prefix are committed even when the loop then
fails, exactly as the source's sequential inserts do. -/
def ack_game_core (s : PalletState) (cluster : GameEngine) (games : List Nat)
    (now : Nat) : Option PalletError × PalletState × List Nat :=
  if games.length > 100 then (some PalletError.AckToMany, s, [])
  else
    match s.gameQueues cluster with
    | none => (some PalletError.NoGameQueue, s, [])
    | some q =>
      let r := ackLoop now games q s.gameRegistry
      (r.1,
        { s with
            gameQueues := upd s.gameQueues cluster (some r.2.1)
            gameRegistry := r.2.2.1 },
        r.2.2.2)

/-- `ack_game` as the dispatchable returns it: the `DispatchResult` (with
the success count reported by the event on `Ok`) and the post state. -/
def ack_game (s : PalletState) (cluster : GameEngine) (games : List Nat)
    (now : Nat) : Except PalletError Nat × PalletState :=
  let r := ack_game_core s cluster games now
  match r.1 with
  | none => (Except.ok r.2.2.length, r.2.1)
  | some e => (Except.error e, r.2.1)

/-- `ready_game` from the source: requires the session to exist, then binds
the executor, stamps slot 2 and overwrites the state to `Running`. -/
def ready_game (s : PalletState) (who : Nat) (game_hash : Nat) (now : Nat) :
    Except PalletError Unit × PalletState :=
  match s.gameRegistry game_hash with
  | none => (Except.error PalletError.NoGameEntry, s)
  | some e =>
    let e' :=
      { e with
          tee_id := some who
          state_change := { e.state_change with s2 := now }
          game_state := GameState.Running }
    (Except.ok (), { s with gameRegistry := upd s.gameRegistry game_hash (some e') })

/-- `finish_game` from the source: requires the session to exist, then
stamps slot 3 and overwrites the state to `Finished(winner)`. -/
def finish_game (s : PalletState) (game_hash : Nat) (winner : Nat) (now : Nat) :
    Except PalletError Unit × PalletState :=
  match s.gameRegistry game_hash with
  | none => (Except.error PalletError.NoGameEntry, s)
  | some e =>
    let e' :=
      { e with
          state_change := { e.state_change with s3 := now }
          game_state := GameState.Finished winner }
    (Except.ok (), { s with gameRegistry := upd s.gameRegistry game_hash (some e') })

/-- The fixed category `GameEngine { id: 1, version: 1 }` used by the
per-block driver when it creates a matched session. -/
def defaultEngine : GameEngine := { id := 1, version := 1 }

/-- The `for _i in 0..MAX_GAMES_PER_BLOCK` loop of the block hook.  `tm k`
is the result of the `k`-th `try_match()` call of this block; the loop
stops at the first empty result.  Returns the post state, the number of
`try_match` calls made and the number of sessions created; `none`
propagates the (unreachable) empty-players panic of `create_game_entry`. -/
def on_init_loop (hashFn : Nat → Nat → Nat → Nat) (tm : Nat → List Nat)
    (seed now : Nat) : Nat → Nat → Nat → PalletState →
    Option (PalletState × Nat × Nat)
  | 0, calls, created, s => some (s, calls, created)
  | fuel + 1, calls, created, s =>
    let r := tm calls
    if r = [] then some (s, calls + 1, created)
    else
      match queue_game hashFn seed now s defaultEngine r with
      | some gs => on_init_loop hashFn tm seed now fuel (calls + 1) (created + 1) gs.2
      | none => none

/-- The source's block-start hook: up to `MAX_GAMES_PER_BLOCK` match
attempts per block, each non-empty group growing a session for the fixed
category `GameEngine { id: 1, version: 1 }`. -/
def on_initialize_driver (hashFn : Nat → Nat → Nat → Nat) (tm : Nat → List Nat)
    (seed now : Nat) (s : PalletState) : Option (PalletState × Nat × Nat) :=
  on_init_loop hashFn tm seed now MAX_GAMES_PER_BLOCK 0 0 s

/-- An externally observable operation on one game category: a cycle-driven
session creation (non-empty player list, head player made explicit) or an
`ack_game` call. -/
inductive GOp where
  | create (p0 : Nat) (prest : List Nat) (seed : Nat)
  | ack (ids : List Nat)

/-- Run a sequence of operations on one category `c`, logging the created
session ids (in creation order) and the ids dequeued by acknowledgments
(in dequeue order). -/
def runOps (hashFn : Nat → Nat → Nat → Nat) (now : Nat) (c : GameEngine) :
    List GOp → PalletState → PalletState × List Nat × List Nat
  | [], s => (s, [], [])
  | GOp.create p0 prest seed :: ops, s =>
    match queue_game hashFn seed now s c (p0 :: prest) with
    | some gs =>
      let r := runOps hashFn now c ops gs.2
      (r.1, gs.1 :: r.2.1, r.2.2)
    | none => runOps hashFn now c ops s
  | GOp.ack ids :: ops, s =>
    let a := ack_game_core s c ids now
    let r := runOps hashFn now c ops a.2.1
    (r.1, r.2.1, a.2.2 ++ r.2.2)

/-- The empty genesis state: no queues, no registry entries, nonce 0. -/
def emptyState : PalletState :=
  { gameQueues := fun _ => none, gameRegistry := fun _ => none, nonce := 0 }

/-- A concrete injected hash capability used for closed evaluations. -/
def hashW : Nat → Nat → Nat → Nat := fun seed _ _ => seed

/-- A concrete registry entry sitting in the `Finished` state. -/
def entryF : GameEntry :=
  { id := 1
    tee_id := some 2
    game_engine := { id := 1, version := 1 }
    players := [4, 9]
    game_state := GameState.Finished 9
    state_change := { s0 := 1, s1 := 2, s2 := 3, s3 := 4 } }

/-- A concrete state whose registry holds `entryF` under key 1. -/
def sC2 : PalletState :=
  { gameQueues := fun _ => none
    gameRegistry := fun k => if k = 1 then some entryF else none
    nonce := 0 }

/-- The state after one cycle-driven creation on category (1,1) from the
empty state, with `hashW` as hash capability and seed 7: the registry holds
session 7, and queue (1,1) holds [7]. -/
def s1W : PalletState :=
  ((queue_game hashW 7 5 emptyState defaultEngine [3]).getD (0, emptyState)).2

/-- `s1W` after `drop_game` with the WRONG category (2,2): the registry
entry is removed but queue (1,1) still holds the id. -/
def s2W : PalletState := drop_game s1W 7 { id := 2, version := 2 }

/-- A concrete state whose (1,1) queue holds the two session ids 1 and 2. -/
def sAB : PalletState :=
  { gameQueues := fun e => if e = defaultEngine then some [1, 2] else none
    gameRegistry := fun _ => none
    nonce := 0 }

/-- A concrete state whose nonce sits at the maximum `u64` value. -/
def sMax : PalletState := { emptyState with nonce := 2 ^ 64 - 1 }

/-- A concrete injective-enough hash capability: mixes the seed and nonce. -/
def hashN : Nat → Nat → Nat → Nat := fun seed _ n => 100 * seed + n

/-- A concrete operation sequence: two creations followed by one full
acknowledgment (ids as produced by `hashN` with nonces 0 and 1). -/
def opsW : List GOp := [GOp.create 1 [] 5, GOp.create 2 [] 6, GOp.ack [500, 601]]

/-! ## Helper lemmas -/

/-- For a duplicate-free list, erasing an element really removes it. -/
theorem nodup_not_mem_erase {q : List Nat} (hq : q.Nodup) (x : Nat) :
    x ∉ q.erase x := by
  induction q with
  | nil => simp
  | cons a t ih =>
    rcases List.nodup_cons.mp hq with ⟨ha, ht⟩
    by_cases hax : a = x
    · subst hax
      rw [List.erase_cons_head]
      exact ha
    · rw [List.erase_cons_tail]
      · intro hmem
        rcases List.mem_cons.mp hmem with h1 | h2
        · exact hax h1.symm
        · exact ih ht h2
      · simp [hax]

/-- The acknowledged ids followed by the remaining queue reconstruct the
original queue: `ackLoop` only ever dequeues from the head. -/
theorem ackLoop_split (now : Nat) :
    ∀ (gs q : List Nat) (reg : Nat → Option GameEntry),
      (ackLoop now gs q reg).2.2.2 ++ (ackLoop now gs q reg).2.1 = q := by
  intro gs
  induction gs with
  | nil => intro q reg; simp [ackLoop]
  | cons g gs ih =>
    intro q reg
    cases q with
    | nil => simp [ackLoop, Queue.peek]
    | cons h qt =>
      by_cases hg : h = g
      · subst hg
        simp [ackLoop, Queue.peek, Queue.dequeue, ih]
      · simp [ackLoop, Queue.peek, Queue.dequeue, hg]

/-! ## C5: batch-size bound -/

/-- C5: an `acknowledge` call whose id list has more than 100 elements fails
with `AckToMany` and returns the state completely unchanged (registry,
queues and nonce included). -/
theorem ack_batch_too_large (s : PalletState) (c : GameEngine)
    (games : List Nat) (now : Nat) (h : games.length > 100) :
    ack_game s c games now = (Except.error PalletError.AckToMany, s) := by
  simp [ack_game, ack_game_core, h]

/-- C5 witness: 101 ids on the empty state. -/
theorem ack_batch_too_large_witness :
    ack_game emptyState defaultEngine (List.replicate 101 0) 0 =
      (Except.error PalletError.AckToMany, emptyState) :=
  ack_batch_too_large emptyState defaultEngine (List.replicate 101 0) 0 (by decide)

/-! ## C7: nonce advancement -/

/-- C7: every call of the identifier generator advances the stored nonce by
exactly 1 modulo `2 ^ 64`; below the maximum this is an exact increment,
and at the maximum `u64` value the nonce wraps to 0. -/
theorem nonce_advance (s : PalletState) :
    (encode_and_update_nonce s).2.nonce = (s.nonce + 1) % 2 ^ 64 ∧
    (s.nonce + 1 < 2 ^ 64 →
      (encode_and_update_nonce s).2.nonce = s.nonce + 1) ∧
    (s.nonce = 2 ^ 64 - 1 → (encode_and_update_nonce s).2.nonce = 0) := by
  refine ⟨rfl, fun h => ?_, fun h => ?_⟩
  · simp only [encode_and_update_nonce]
    exact Nat.mod_eq_of_lt h
  · simp only [encode_and_update_nonce, h]
    norm_num

/-- C7 witness: the increment at nonce 0 and the wrap at the maximum. -/
theorem nonce_advance_witness :
    (encode_and_update_nonce emptyState).2.nonce = 1 ∧
    (encode_and_update_nonce sMax).2.nonce = 0 :=
  ⟨(nonce_advance emptyState).2.1 (by decide), (nonce_advance sMax).2.2 (by decide)⟩

/-! ## C2: Finished is not terminal -/

/-- C2 counterexample: a registry record in state `Finished(9)` is moved out
of the `Finished` variant by a successful `ready_game` call, which
overwrites the state to `Running`.  So `Finished` is not terminal. -/
theorem finished_terminal_counterexample :
    Option.map (fun e => GameState.isFinished e.game_state) (sC2.gameRegistry 1) =
      some true ∧
    (ready_game sC2 3 1 5).1 = Except.ok () ∧
    Option.map (fun e => GameState.isFinished e.game_state)
      ((ready_game sC2 3 1 5).2.gameRegistry 1) = some false :=
  ⟨rfl, rfl, rfl⟩

/-- C2 amended: `Finished` is not terminal.  For a record in state
`Finished(w)`: `ready_game` succeeds and overwrites the state to `Running`
(leaving the `Finished` variant), while `finish_game` keeps the record
inside the `Finished` variant, merely replacing the winner. -/
theorem finished_not_terminal (s : PalletState) (who h now w winner : Nat)
    (e : GameEntry) (hreg : s.gameRegistry h = some e)
    (_hfin : e.game_state = GameState.Finished w) :
    (∃ e', (ready_game s who h now).2.gameRegistry h = some e' ∧
      e'.game_state = GameState.Running) ∧
    (∃ e', (finish_game s h winner now).2.gameRegistry h = some e' ∧
      e'.game_state = GameState.Finished winner) := by
  constructor
  · exact ⟨{ e with
        tee_id := some who
        state_change := { e.state_change with s2 := now }
        game_state := GameState.Running },
      by simp [ready_game, hreg, upd], rfl⟩
  · exact ⟨{ e with
        state_change := { e.state_change with s3 := now }
        game_state := GameState.Finished winner },
      by simp [finish_game, hreg, upd], rfl⟩

/-- C2 witness: the amended statement at the concrete `Finished(9)` record. -/
theorem finished_not_terminal_witness :
    (∃ e', (ready_game sC2 3 1 5).2.gameRegistry 1 = some e' ∧
      e'.game_state = GameState.Running) ∧
    (∃ e', (finish_game sC2 1 4 5).2.gameRegistry 1 = some e' ∧
      e'.game_state = GameState.Finished 4) :=
  finished_not_terminal sC2 3 1 5 9 4 entryF rfl rfl

/-! ## C6: ready / finish overwrite any prior state -/

/-- C6: for any session id present in the registry, whatever the record's
current state: `ready_game` succeeds, binds the executor to the caller,
sets the state to `Running` and stamps slot 2; `finish_game` succeeds, sets
`Finished(winner)` and stamps slot 3; and two successive `finish_game`
calls leave the most recently supplied winner. -/
theorem ready_finish_overwrite (s : PalletState)
    (who h now now1 now2 w1 w2 : Nat) (hs : (s.gameRegistry h).isSome) :
    ((ready_game s who h now).1 = Except.ok () ∧
      ∃ e', (ready_game s who h now).2.gameRegistry h = some e' ∧
        e'.tee_id = some who ∧ e'.game_state = GameState.Running ∧
        e'.state_change.s2 = now) ∧
    ((finish_game s h w1 now).1 = Except.ok () ∧
      ∃ e', (finish_game s h w1 now).2.gameRegistry h = some e' ∧
        e'.game_state = GameState.Finished w1 ∧ e'.state_change.s3 = now) ∧
    (∃ e', (finish_game (finish_game s h w1 now1).2 h w2 now2).2.gameRegistry h =
        some e' ∧ e'.game_state = GameState.Finished w2) := by
  obtain ⟨e, he⟩ := Option.isSome_iff_exists.mp hs
  refine ⟨⟨by simp [ready_game, he],
      ⟨{ e with
          tee_id := some who
          state_change := { e.state_change with s2 := now }
          game_state := GameState.Running },
        by simp [ready_game, he, upd], rfl, rfl, rfl⟩⟩,
    ⟨by simp [finish_game, he],
      ⟨{ e with
          state_change := { e.state_change with s3 := now }
          game_state := GameState.Finished w1 },
        by simp [finish_game, he, upd], rfl, rfl⟩⟩, ?_⟩
  refine ⟨{ e with
      state_change := { e.state_change with s3 := now2 }
      game_state := GameState.Finished w2 }, ?_, rfl⟩
  simp [finish_game, he, upd]

/-! ## C4: drop semantics -/

/-- C4: if the registry holds the session id, `drop_game` removes the
registry entry (other entries untouched) and erases the first occurrence of
the id from the given category's queue (other queues untouched), the
remaining queue being an order-preserving sublist from which the id is
gone whenever the queue was duplicate-free; if the registry does not hold
the id, the call (which always returns success) changes no state at all. -/
theorem drop_game_spec (s : PalletState) (h : Nat) (ge : GameEngine) :
    ((s.gameRegistry h).isSome →
      (drop_game s h ge).gameRegistry h = none ∧
      (∀ k, k ≠ h → (drop_game s h ge).gameRegistry k = s.gameRegistry k) ∧
      (drop_game s h ge).gameQueues ge =
        Option.map (fun q => q.erase h) (s.gameQueues ge) ∧
      (∀ ge2, ge2 ≠ ge → (drop_game s h ge).gameQueues ge2 = s.gameQueues ge2) ∧
      (∀ q, s.gameQueues ge = some q →
        List.Sublist (q.erase h) q ∧ (q.Nodup → h ∉ q.erase h))) ∧
    (s.gameRegistry h = none → drop_game s h ge = s) := by
  constructor
  · intro hsome
    have hlist : ∀ q : List Nat,
        List.Sublist (q.erase h) q ∧ (q.Nodup → h ∉ q.erase h) :=
      fun q => ⟨List.erase_sublist h q, fun hnd => nodup_not_mem_erase hnd h⟩
    have hlast : ∀ t : Option (List Nat), ∀ q, t = some q →
        List.Sublist (q.erase h) q ∧ (q.Nodup → h ∉ q.erase h) :=
      fun _ q _ => hlist q
    rcases hq : s.gameQueues ge with _ | q
    · refine ⟨?_, ?_, ?_, ?_, hlast _⟩
      · simp [drop_game, hsome, hq, Queue.size, upd]
      · intro k hk
        simp [drop_game, hsome, hq, Queue.size, upd, hk]
      · simp [drop_game, hsome, hq, Queue.size, upd]
      · intro ge2 _
        simp [drop_game, hsome, hq, Queue.size, upd]
    · rcases q with _ | ⟨a, t⟩
      · refine ⟨?_, ?_, ?_, ?_, hlast _⟩
        · simp [drop_game, hsome, hq, Queue.size, upd]
        · intro k hk
          simp [drop_game, hsome, hq, Queue.size, upd, hk]
        · simp [drop_game, hsome, hq, Queue.size, upd]
        · intro ge2 _
          simp [drop_game, hsome, hq, Queue.size, upd]
      · refine ⟨?_, ?_, ?_, ?_, hlast _⟩
        · simp [drop_game, hsome, hq, Queue.size, Queue.remove, upd]
        · intro k hk
          simp [drop_game, hsome, hq, Queue.size, Queue.remove, upd, hk]
        · simp [drop_game, hsome, hq, Queue.size, Queue.remove, upd]
        · intro ge2 hge2
          simp [drop_game, hsome, hq, Queue.size, Queue.remove, upd, hge2]
  · intro hnone
    simp [drop_game, hnone]

/-- C4 witness: dropping the one registered-and-queued session removes its
registry entry; dropping an absent id from the empty state is a no-op. -/
theorem drop_game_spec_witness :
    (drop_game s1W 7 defaultEngine).gameRegistry 7 = none ∧
    drop_game emptyState 5 defaultEngine = emptyState :=
  ⟨((drop_game_spec s1W 7 defaultEngine).1 (by decide)).1,
    (drop_game_spec emptyState 5 defaultEngine).2 rfl⟩

/-! ## C1: acknowledgment failure commits the matched part of the batch -/

/-- C1: with the category's queue holding `[a, b]`, acknowledging `[a, c]`
(where `c` is not `b`) fails with `AckFail`, yet the work done before the
mismatch is committed: `a`'s registry record is `Accepted` with the
acceptance tick in slot 1, `a` is dequeued, and `b` is now the whole queue
(hence its head). -/
theorem ack_partial_commit (s : PalletState) (ge : GameEngine)
    (a b c now : Nat) (hq : s.gameQueues ge = some [a, b]) (hne : c ≠ b) :
    (ack_game s ge [a, c] now).1 = Except.error PalletError.AckFail ∧
    (∃ e, (ack_game s ge [a, c] now).2.gameRegistry a = some e ∧
      e.game_state = GameState.Accepted ∧ e.state_change.s1 = now) ∧
    (ack_game s ge [a, c] now).2.gameQueues ge = some [b] := by
  have hbc : b ≠ c := fun hh => hne hh.symm
  refine ⟨?_, ⟨ackEntry s.gameRegistry a now, ?_, rfl, rfl⟩, ?_⟩
  · simp [ack_game, ack_game_core, hq, ackLoop, Queue.peek, Queue.dequeue, hbc]
  · simp [ack_game, ack_game_core, hq, ackLoop, Queue.peek, Queue.dequeue, hbc, upd]
  · simp [ack_game, ack_game_core, hq, ackLoop, Queue.peek, Queue.dequeue, hbc, upd]

/-- C1 witness: the concrete scenario queue = [1, 2], batch = [1, 3]. -/
theorem ack_partial_commit_witness :
    (ack_game sAB defaultEngine [1, 3] 9).1 = Except.error PalletError.AckFail ∧
    (∃ e, (ack_game sAB defaultEngine [1, 3] 9).2.gameRegistry 1 = some e ∧
      e.game_state = GameState.Accepted ∧ e.state_change.s1 = 9) ∧
    (ack_game sAB defaultEngine [1, 3] 9).2.gameQueues defaultEngine = some [2] :=
  ack_partial_commit sAB defaultEngine 1 2 3 9 (by decide) (by decide)

/-! ## C9: acknowledging a queued id with no registry entry -/

/-- C9: if an id sits at the head of a category's queue but has no registry
entry, `acknowledge` of that single id succeeds (count 1) and inserts a
fresh registry record that is the default entry except for state
`Accepted` and the acceptance tick: stored id 0, no executor, no players,
category (0,0), and zeroes in the other tick slots.  Moreover such a
queue-without-registry id is reachable: `s2W`, obtained by creating a
session on category (1,1) and then dropping it under category (2,2),
keeps id 7 queued under (1,1) while its registry entry is gone. -/
theorem ack_absent_registry (s : PalletState) (ge : GameEngine)
    (g : Nat) (qt : List Nat) (now : Nat)
    (hq : s.gameQueues ge = some (g :: qt)) (hreg : s.gameRegistry g = none) :
    (ack_game s ge [g] now).1 = Except.ok 1 ∧
    (ack_game s ge [g] now).2.gameRegistry g =
      some { id := 0
             tee_id := none
             game_engine := { id := 0, version := 0 }
             players := []
             game_state := GameState.Accepted
             state_change := { s0 := 0, s1 := now, s2 := 0, s3 := 0 } } ∧
    (s2W.gameQueues defaultEngine = some [7] ∧ s2W.gameRegistry 7 = none) := by
  refine ⟨?_, ?_, by decide, by decide⟩
  · simp [ack_game, ack_game_core, hq, ackLoop, Queue.peek, Queue.dequeue]
  · simp [ack_game, ack_game_core, hq, ackLoop, Queue.peek, Queue.dequeue, upd,
      ackEntry, hreg, defaultGameEntry]

/-- C9 witness: acknowledging the orphaned id 7 of `s2W` itself. -/
theorem ack_absent_registry_witness :
    (ack_game s2W defaultEngine [7] 11).1 = Except.ok 1 ∧
    (ack_game s2W defaultEngine [7] 11).2.gameRegistry 7 =
      some { id := 0
             tee_id := none
             game_engine := { id := 0, version := 0 }
             players := []
             game_state := GameState.Accepted
             state_change := { s0 := 0, s1 := 11, s2 := 0, s3 := 0 } } :=
  ⟨(ack_absent_registry s2W defaultEngine 7 [] 11 (by decide) (by decide)).1,
    (ack_absent_registry s2W defaultEngine 7 [] 11 (by decide) (by decide)).2.1⟩

/-! ## C3: FIFO dequeue order -/

/-- `queue_game` on a non-empty player list always succeeds, and its effect
on the queues map is to append the fresh id at the tail of the target
category's queue (creating the queue when absent). -/
theorem queue_game_queues (hF : Nat → Nat → Nat → Nat) (seed now : Nat)
    (s : PalletState) (ge : GameEngine) (p0 : Nat) (ps : List Nat) :
    ∃ gid s', queue_game hF seed now s ge (p0 :: ps) = some (gid, s') ∧
      s'.gameQueues =
        upd s.gameQueues ge (some ((s.gameQueues ge).getD [] ++ [gid])) := by
  refine ⟨hF seed p0 s.nonce, _, rfl, ?_⟩
  rcases hq : s.gameQueues ge with _ | q0
  · simp [queue_game, create_game_entry, generate_random_hash,
      encode_and_update_nonce, Queue.enqueue, Queue.new, hq]
  · simp [queue_game, create_game_entry, generate_random_hash,
      encode_and_update_nonce, Queue.enqueue, Queue.new, hq]

/-- The queue contents consumed by one `ack_game` call: the acknowledged
ids followed by the post-state queue reconstruct the pre-state queue. -/
theorem ack_game_core_queues (s : PalletState) (c : GameEngine)
    (ids : List Nat) (now : Nat) :
    (ack_game_core s c ids now).2.2 ++
        (((ack_game_core s c ids now).2.1.gameQueues c).getD []) =
      (s.gameQueues c).getD [] := by
  by_cases hlen : ids.length > 100
  · simp [ack_game_core, hlen]
  · rcases hq : s.gameQueues c with _ | q
    · simp [ack_game_core, hlen, hq]
    · simp only [ack_game_core, hlen, if_false, hq]
      simpa [upd] using ackLoop_split now ids q s.gameRegistry

/-- Invariant of `runOps`: the dequeue log followed by the current queue
equals the initial queue followed by the creation log. -/
theorem runOps_inv (hF : Nat → Nat → Nat → Nat) (now : Nat) (c : GameEngine) :
    ∀ (ops : List GOp) (s : PalletState),
      (runOps hF now c ops s).2.2 ++
          (((runOps hF now c ops s).1.gameQueues c).getD []) =
        (s.gameQueues c).getD [] ++ (runOps hF now c ops s).2.1 := by
  intro ops
  induction ops with
  | nil => intro s; simp [runOps]
  | cons op ops ih =>
    intro s
    cases op with
    | create p0 prest seed =>
      obtain ⟨gid, s1, hqg, hqs⟩ := queue_game_queues hF seed now s c p0 prest
      have h1 : (s1.gameQueues c).getD [] = (s.gameQueues c).getD [] ++ [gid] := by
        simp [hqs, upd]
      calc (runOps hF now c (GOp.create p0 prest seed :: ops) s).2.2 ++
            (((runOps hF now c (GOp.create p0 prest seed :: ops) s).1.gameQueues c).getD [])
          = (runOps hF now c ops s1).2.2 ++
            (((runOps hF now c ops s1).1.gameQueues c).getD []) := by
            simp [runOps, hqg]
        _ = (s1.gameQueues c).getD [] ++ (runOps hF now c ops s1).2.1 := ih s1
        _ = (s.gameQueues c).getD [] ++
            (gid :: (runOps hF now c ops s1).2.1) := by
            rw [h1, List.append_assoc]
            rfl
        _ = (s.gameQueues c).getD [] ++
            (runOps hF now c (GOp.create p0 prest seed :: ops) s).2.1 := by
            simp [runOps, hqg]
    | ack ids =>
      have hack := ack_game_core_queues s c ids now
      have hr := ih (ack_game_core s c ids now).2.1
      calc (runOps hF now c (GOp.ack ids :: ops) s).2.2 ++
            (((runOps hF now c (GOp.ack ids :: ops) s).1.gameQueues c).getD [])
          = ((ack_game_core s c ids now).2.2 ++
              (runOps hF now c ops (ack_game_core s c ids now).2.1).2.2) ++
            (((runOps hF now c ops (ack_game_core s c ids now).2.1).1.gameQueues c).getD []) := by
            simp [runOps]
        _ = (ack_game_core s c ids now).2.2 ++
            (((ack_game_core s c ids now).2.1.gameQueues c).getD [] ++
              (runOps hF now c ops (ack_game_core s c ids now).2.1).2.1) := by
            rw [List.append_assoc, hr]
        _ = (s.gameQueues c).getD [] ++
            (runOps hF now c ops (ack_game_core s c ids now).2.1).2.1 := by
            rw [← List.append_assoc, hack]
        _ = (s.gameQueues c).getD [] ++
            (runOps hF now c (GOp.ack ids :: ops) s).2.1 := by
            simp [runOps]

/-- C3: starting from a state whose queue for category `c` is empty (or not
yet created), for any sequence of session creations and acknowledge calls
on `c` — no drop occurring — the ids dequeued by the acknowledge calls
follow exactly the creation order: the dequeue log is an initial segment
of the creation log, and once the queue has drained the two logs are
equal. -/
theorem fifo_dequeue_order (hF : Nat → Nat → Nat → Nat) (now : Nat)
    (c : GameEngine) (ops : List GOp) (s : PalletState)
    (h0 : (s.gameQueues c).getD [] = []) :
    (∃ t, (runOps hF now c ops s).2.2 ++ t = (runOps hF now c ops s).2.1) ∧
    (((runOps hF now c ops s).1.gameQueues c).getD [] = [] →
      (runOps hF now c ops s).2.2 = (runOps hF now c ops s).2.1) := by
  have hinv := runOps_inv hF now c ops s
  rw [h0, List.nil_append] at hinv
  exact ⟨⟨_, hinv⟩, fun hq => by rw [hq, List.append_nil] at hinv; exact hinv⟩

/-- C3 witness: two creations then one acknowledge of both ids, from the
empty state; both logs come out as [500, 601]. -/
theorem fifo_dequeue_order_witness :
    ∃ t, (runOps hashN 3 defaultEngine opsW emptyState).2.2 ++ t =
      (runOps hashN 3 defaultEngine opsW emptyState).2.1 :=
  (fifo_dequeue_order hashN 3 defaultEngine opsW emptyState rfl).1

/-! ## C8 and C10: the per-block driver -/

/-- The driver loop never hits the empty-players branch of `queue_game`:
every group it forwards was checked non-empty. -/
theorem on_init_loop_isSome (hF : Nat → Nat → Nat → Nat) (tm : Nat → List Nat)
    (seed now : Nat) :
    ∀ (fuel calls created : Nat) (s : PalletState),
      (on_init_loop hF tm seed now fuel calls created s).isSome := by
  intro fuel
  induction fuel with
  | zero => intro calls created s; simp [on_init_loop]
  | succ n ih =>
    intro calls created s
    by_cases hr : tm calls = []
    · simp [on_init_loop, hr]
    · obtain ⟨p0, ps, hps⟩ := List.exists_cons_of_ne_nil hr
      obtain ⟨gid, s1, hqg, -⟩ := queue_game_queues hF seed now s defaultEngine p0 ps
      simp only [on_init_loop, hps]
      simp only [hqg]
      simpa using ih (calls + 1) (created + 1) s1

/-- Counter bounds of the driver loop: at most `fuel` further calls, and
the created count never outruns the call count. -/
theorem on_init_loop_bound (hF : Nat → Nat → Nat → Nat) (tm : Nat → List Nat)
    (seed now : Nat) :
    ∀ (fuel calls created : Nat) (s : PalletState) (s' : PalletState)
      (c' d' : Nat),
      on_init_loop hF tm seed now fuel calls created s = some (s', c', d') →
      c' ≤ calls + fuel ∧ d' + calls ≤ c' + created ∧ created ≤ d' := by
  intro fuel
  induction fuel with
  | zero =>
    intro calls created s s' c' d' hl
    simp [on_init_loop] at hl
    omega
  | succ n ih =>
    intro calls created s s' c' d' hl
    by_cases hr : tm calls = []
    · simp [on_init_loop, hr] at hl
      omega
    · obtain ⟨p0, ps, hps⟩ := List.exists_cons_of_ne_nil hr
      obtain ⟨gid, s1, hqg, -⟩ := queue_game_queues hF seed now s defaultEngine p0 ps
      simp only [on_init_loop, hps] at hl
      simp only [hqg] at hl
      have := ih (calls + 1) (created + 1) s1 s' c' d' (by simpa using hl)
      omega

/-- Each created session of the driver loop adds exactly one id to the
(1,1) queue. -/
theorem on_init_loop_qlen (hF : Nat → Nat → Nat → Nat) (tm : Nat → List Nat)
    (seed now : Nat) :
    ∀ (fuel calls created : Nat) (s : PalletState) (s' : PalletState)
      (c' d' : Nat),
      on_init_loop hF tm seed now fuel calls created s = some (s', c', d') →
      ((s'.gameQueues defaultEngine).getD []).length + created =
        ((s.gameQueues defaultEngine).getD []).length + d' := by
  intro fuel
  induction fuel with
  | zero =>
    intro calls created s s' c' d' hl
    simp [on_init_loop] at hl
    obtain ⟨rfl, -, rfl⟩ := hl
    rfl
  | succ n ih =>
    intro calls created s s' c' d' hl
    by_cases hr : tm calls = []
    · simp [on_init_loop, hr] at hl
      obtain ⟨rfl, -, rfl⟩ := hl
      rfl
    · obtain ⟨p0, ps, hps⟩ := List.exists_cons_of_ne_nil hr
      obtain ⟨gid, s1, hqg, hq1⟩ := queue_game_queues hF seed now s defaultEngine p0 ps
      simp only [on_init_loop, hps] at hl
      simp only [hqg] at hl
      have hrec := ih (calls + 1) (created + 1) s1 s' c' d' (by simpa using hl)
      have hlen : ((s1.gameQueues defaultEngine).getD []).length =
          ((s.gameQueues defaultEngine).getD []).length + 1 := by
        simp [hq1, upd]
      omega

/-- When every remaining match attempt yields a group, the loop runs its
full fuel, one call and one created session per iteration. -/
theorem on_init_loop_all_nonempty (hF : Nat → Nat → Nat → Nat)
    (tm : Nat → List Nat) (seed now : Nat) :
    ∀ (fuel calls created : Nat) (s : PalletState),
      (∀ j, j < fuel → tm (calls + j) ≠ []) →
      ∃ s', on_init_loop hF tm seed now fuel calls created s =
        some (s', calls + fuel, created + fuel) := by
  intro fuel
  induction fuel with
  | zero => intro calls created s _; exact ⟨s, by simp [on_init_loop]⟩
  | succ n ih =>
    intro calls created s hne
    have h0 : tm calls ≠ [] := by simpa using hne 0 n.succ_pos
    obtain ⟨p0, ps, hps⟩ := List.exists_cons_of_ne_nil h0
    obtain ⟨gid, s1, hqg, -⟩ := queue_game_queues hF seed now s defaultEngine p0 ps
    have hrest : ∀ j, j < n → tm (calls + 1 + j) ≠ [] := by
      intro j hj
      have := hne (j + 1) (by omega)
      rwa [show calls + (j + 1) = calls + 1 + j by omega] at this
    obtain ⟨s', hs'⟩ := ih (calls + 1) (created + 1) s1 hrest
    refine ⟨s', ?_⟩
    rw [show calls + (n + 1) = calls + 1 + n from by omega,
      show created + (n + 1) = created + 1 + n from by omega]
    simp only [on_init_loop, hps]
    simpa [hqg] using hs'

/-- When the first empty match attempt has index `j` (all earlier ones
non-empty), the loop makes exactly `j + 1` calls and creates `j`
sessions. -/
theorem on_init_loop_first_empty (hF : Nat → Nat → Nat → Nat)
    (tm : Nat → List Nat) (seed now : Nat) :
    ∀ (fuel j calls created : Nat) (s : PalletState),
      j < fuel → tm (calls + j) = [] →
      (∀ i, i < j → tm (calls + i) ≠ []) →
      ∃ s', on_init_loop hF tm seed now fuel calls created s =
        some (s', calls + j + 1, created + j) := by
  intro fuel
  induction fuel with
  | zero => intro j calls created s hj; exact absurd hj (Nat.not_lt_zero j)
  | succ n ih =>
    intro j calls created s hj hempty hne
    cases j with
    | zero =>
      have h0 : tm calls = [] := by simpa using hempty
      exact ⟨s, by simp [on_init_loop, h0]⟩
    | succ j' =>
      have h0 : tm calls ≠ [] := by simpa using hne 0 j'.succ_pos
      obtain ⟨p0, ps, hps⟩ := List.exists_cons_of_ne_nil h0
      obtain ⟨gid, s1, hqg, -⟩ :=
        queue_game_queues hF seed now s defaultEngine p0 ps
      have hempty' : tm (calls + 1 + j') = [] := by
        rwa [show calls + 1 + j' = calls + (j' + 1) by omega]
      have hne' : ∀ i, i < j' → tm (calls + 1 + i) ≠ [] := by
        intro i hi
        have := hne (i + 1) (by omega)
        rwa [show calls + (i + 1) = calls + 1 + i by omega] at this
      obtain ⟨s', hs'⟩ := ih j' (calls + 1) (created + 1) s1 (by omega) hempty' hne'
      refine ⟨s', ?_⟩
      rw [show calls + (j' + 1) + 1 = calls + 1 + j' + 1 from by omega,
        show created + (j' + 1) = created + 1 + j' from by omega]
      simp only [on_init_loop, hps]
      simpa [hqg] using hs'

/-- C8: in every block the driver calls `try_match` at most 10 times and
creates at most one session per call (all on the fixed category (1,1), each
appending exactly one id to that queue); when none of the first 10 attempts
is empty it makes exactly 10 calls and 10 sessions; and it stops
immediately at the first empty result: if attempt `j` is the first empty
one, exactly `j + 1` calls are made and `j` sessions created. -/
theorem on_initialize_cycle_bound (hF : Nat → Nat → Nat → Nat)
    (tm : Nat → List Nat) (seed now : Nat) (s : PalletState) :
    (∀ s' c' d', on_initialize_driver hF tm seed now s = some (s', c', d') →
      c' ≤ 10 ∧ d' ≤ c' ∧
      ((s'.gameQueues defaultEngine).getD []).length =
        ((s.gameQueues defaultEngine).getD []).length + d') ∧
    ((∀ j, j < 10 → tm j ≠ []) →
      ∃ s', on_initialize_driver hF tm seed now s = some (s', 10, 10)) ∧
    (∀ j, j < 10 → tm j = [] → (∀ i, i < j → tm i ≠ []) →
      ∃ s', on_initialize_driver hF tm seed now s = some (s', j + 1, j)) := by
  refine ⟨?_, ?_, ?_⟩
  · intro s' c' d' h
    have hb := on_init_loop_bound hF tm seed now 10 0 0 s s' c' d' h
    have hq := on_init_loop_qlen hF tm seed now 10 0 0 s s' c' d' h
    exact ⟨by omega, by omega, by omega⟩
  · intro hne
    obtain ⟨s', hs'⟩ := on_init_loop_all_nonempty hF tm seed now 10 0 0 s
      (fun j hj => by simpa using hne j hj)
    exact ⟨s', by simpa using hs'⟩
  · intro j hj hempty hne
    obtain ⟨s', hs'⟩ := on_init_loop_first_empty hF tm seed now 10 j 0 0 s hj
      (by simpa using hempty) (fun i hi => by simpa using hne i hi)
    exact ⟨s', by simpa using hs'⟩

/-- C8 witness: with every attempt matching, 10 calls and 10 sessions; with
the very first attempt empty, one call and no session. -/
theorem on_initialize_cycle_bound_witness :
    (∃ s', on_initialize_driver hashW (fun _ => [1, 2]) 0 0 emptyState =
      some (s', 10, 10)) ∧
    (∃ s', on_initialize_driver hashW (fun _ => []) 0 0 emptyState =
      some (s', 1, 0)) :=
  ⟨(on_initialize_cycle_bound hashW (fun _ => [1, 2]) 0 0 emptyState).2.1
      (fun j _ => by simp),
    (on_initialize_cycle_bound hashW (fun _ => []) 0 0 emptyState).2.2 0
      (by decide) rfl (fun i hi => absurd hi (Nat.not_lt_zero i))⟩

/-- C10: session-record creation indexes the first participant, so it is
partial: on an empty player list it hits the out-of-bounds branch
(modelled as `none`), on any non-empty list it succeeds; and every call
reachable from the per-block driver passes a non-empty matched group, so
the driver never reaches the out-of-bounds branch. -/
theorem create_game_entry_first_player (hF : Nat → Nat → Nat → Nat)
    (seed now : Nat) (s : PalletState) (ge : GameEngine) :
    create_game_entry hF seed now s ge [] = none ∧
    (∀ p0 ps, (create_game_entry hF seed now s ge (p0 :: ps)).isSome) ∧
    (∀ (tm : Nat → List Nat) (s0 : PalletState),
      (on_initialize_driver hF tm seed now s0).isSome) :=
  ⟨rfl, fun _ _ => rfl,
    fun tm s0 => on_init_loop_isSome hF tm seed now MAX_GAMES_PER_BLOCK 0 0 s0⟩

/-- C6 witness: the overwrite behavior on the concrete `Waiting` record of
`s1W` (session 7), including the double-finish winner replacement. -/
theorem ready_finish_overwrite_witness :
    (ready_game s1W 3 7 5).1 = Except.ok () ∧
    (finish_game s1W 7 4 5).1 = Except.ok () ∧
    (∃ e', (finish_game (finish_game s1W 7 4 5).2 7 8 6).2.gameRegistry 7 =
      some e' ∧ e'.game_state = GameState.Finished 8) :=
  ⟨((ready_finish_overwrite s1W 3 7 5 5 6 4 8 (by decide)).1).1,
    ((ready_finish_overwrite s1W 3 7 5 5 6 4 8 (by decide)).2.1).1,
    (ready_finish_overwrite s1W 3 7 5 5 6 4 8 (by decide)).2.2⟩
